import Mathlib

/-!
Shallow embedding of the geofence visit-detection core of
`Footprint-csv-tools` (`path_analyze/visits.py`, `path_analyze/models.py`,
the clipped-summary code of `path_analyze/cli.py` and `streamlit_app.py`).

Modelling conventions:
* Python `int` epoch-millisecond timestamps become `Int`.
* Python `float` parameters and second-valued quantities become `Rat`;
  the source divides integer millisecond differences by `1000.0` and
  compares against float thresholds, which we model exactly in `Rat`.
* The geometry predicate `is_inside_circle` (haversine, transcendental
  floating point, declared out of the algorithmic core by the spec) is
  abstracted as a Boolean classifier `inside : Rat → Rat → Bool` applied to
  a sample's latitude/longitude; the engine only ever consumes its Boolean
  result, so quantifying over all classifiers covers every geofence.
* `Visit.start_dt`/`end_dt` (timezone renderings of the epoch fields) and
  the `tz_name` parameter are dropped: they are derived data never read by
  the segmentation logic.
* `TrackPoint` keeps only the fields the engine reads (`geo_time_ms`,
  `latitude`, `longitude`); the remaining CSV fields are carried through
  unchanged by the source and never inspected.
-/

/-- A single location sample (`models.TrackPoint`), restricted to the fields
the segmentation engine reads. -/
structure TrackPoint where
  geo_time_ms : Int
  latitude : Rat
  longitude : Rat
deriving DecidableEq, Repr

/-- A circle geofence (`visits.GeofenceCircle`). Only consumed through the
abstracted inside-classifier, kept for the data model. -/
structure GeofenceCircle where
  center_lat : Rat
  center_lon : Rat
  radius_m : Rat
deriving DecidableEq, Repr

/-- Parameters controlling visit segmentation (`visits.VisitParams`), with
the timezone name dropped (it only affects datetime rendering). -/
structure VisitParams where
  max_gap_seconds : Rat
  exit_grace_seconds : Rat
  transition_gap_seconds : Rat
  min_dwell_seconds : Rat
deriving DecidableEq, Repr

/-- A detected visit (`models.Visit`), with the derived datetime fields
dropped. -/
structure Visit where
  visit_id : Int
  start_ms : Int
  end_ms : Int
  points : Nat
  method : String
deriving DecidableEq, Repr

/-- `models.Visit.duration_seconds`: `max(0.0, (end_ms - start_ms) / 1000.0)`. -/
def Visit.duration_seconds (v : Visit) : Rat :=
  max 0 (((v.end_ms - v.start_ms : Int) : Rat) / 1000)

/-- `visits._boundary_ms`: estimate the entry/exit boundary timestamp.
`Int.fdiv` is Python's floor division `//`. -/
def boundary_ms (prev_ms cur_ms : Int) (max_gap_s : Rat) (prefer : String) : Int :=
  if cur_ms < prev_ms then prev_ms
  else if ((cur_ms - prev_ms : Int) : Rat) / 1000 ≤ max_gap_s then
    prev_ms + (cur_ms - prev_ms).fdiv 2
  else if prefer = "prev" then prev_ms else cur_ms

/-- `visits._append_visit`: append the candidate visit unless it has
non-positive duration or falls below the minimum dwell. -/
def appendVisit (visits : List Visit) (visit_id : Int) (start_ms end_ms : Int)
    (points : Nat) (method : String) (min_dwell_s : Rat) : List Visit :=
  if end_ms ≤ start_ms then visits
  else if ((end_ms - start_ms : Int) : Rat) / 1000 < min_dwell_s then visits
  else visits ++ [⟨visit_id, start_ms, end_ms, points, method⟩]

/-- The mutable locals of the `find_visits` loop, gathered into one state
value (the spec's explicit state-machine view of the source's counters).
`prev`/`prev_inside` are the previous sample and its classification. -/
structure EngineState where
  visits : List Visit
  in_visit : Bool
  visit_start_ms : Int
  visit_end_ms : Int
  last_inside_ms : Int
  outside_started_ms : Option Int
  visit_points : Nat
  visit_id : Int
  method : String
  prev : TrackPoint
  prev_inside : Bool
deriving Repr

/-- State after classifying the first sample (`find_visits` lines before the
loop): if it is inside, a visit opens immediately. -/
def initState (inside : Rat → Rat → Bool) (p0 : TrackPoint) : EngineState :=
  if inside p0.latitude p0.longitude then
    { visits := [], in_visit := true, visit_start_ms := p0.geo_time_ms,
      visit_end_ms := p0.geo_time_ms, last_inside_ms := p0.geo_time_ms,
      outside_started_ms := none, visit_points := 1, visit_id := 1,
      method := "start_at_first_inside", prev := p0, prev_inside := true }
  else
    { visits := [], in_visit := false, visit_start_ms := 0,
      visit_end_ms := 0, last_inside_ms := 0, outside_started_ms := none,
      visit_points := 0, visit_id := 1, method := "midpoint",
      prev := p0, prev_inside := false }

/-- One iteration of the `find_visits` loop body on the current sample.
(The source also computes a local `gap_s` from `prev` that it never reads;
it is omitted.) -/
def stepVisit (inside : Rat → Rat → Bool) (params : VisitParams)
    (st : EngineState) (cur : TrackPoint) : EngineState :=
  let cur_inside := inside cur.latitude cur.longitude
  let st1 :=
    if st.in_visit then
      if cur_inside then
        -- inside again: clear any pending exit, then check the inside-gap split
        if st.last_inside_ms > 0 ∧
            ((cur.geo_time_ms - st.last_inside_ms : Int) : Rat) / 1000 > params.max_gap_seconds then
          { st with
            visits := appendVisit st.visits st.visit_id st.visit_start_ms
              st.last_inside_ms st.visit_points "split_on_inside_gap"
              params.min_dwell_seconds,
            visit_id := st.visit_id + 1,
            visit_start_ms := cur.geo_time_ms, visit_end_ms := cur.geo_time_ms,
            last_inside_ms := cur.geo_time_ms, visit_points := 1,
            outside_started_ms := none, method := "restart_after_gap" }
        else
          { st with
            visit_end_ms := cur.geo_time_ms,
            last_inside_ms := cur.geo_time_ms,
            visit_points := st.visit_points + 1, outside_started_ms := none }
      else
        -- exit confirmation: only close after staying outside long enough
        let os := st.outside_started_ms.getD cur.geo_time_ms
        let outside_s : Rat :=
          if cur.geo_time_ms ≥ os then ((cur.geo_time_ms - os : Int) : Rat) / 1000 else 0
        if outside_s ≥ params.exit_grace_seconds then
          let exit_ms := boundary_ms st.last_inside_ms os
            params.transition_gap_seconds "prev"
          let ve := max st.visit_end_ms exit_ms
          { st with
            visits := appendVisit st.visits st.visit_id st.visit_start_ms ve
              st.visit_points "exit_grace" params.min_dwell_seconds,
            visit_id := st.visit_id + 1, in_visit := false,
            visit_points := 0, outside_started_ms := none,
            visit_end_ms := ve }
        else
          { st with outside_started_ms := some os }
    else
      if (!st.prev_inside) && cur_inside then
        { st with
          visit_start_ms := boundary_ms st.prev.geo_time_ms cur.geo_time_ms
            params.transition_gap_seconds "cur",
          visit_end_ms := cur.geo_time_ms, last_inside_ms := cur.geo_time_ms,
          visit_points := 1, in_visit := true, outside_started_ms := none,
          method := "midpoint_entry" }
      else if cur_inside then
        { st with
          visit_start_ms := cur.geo_time_ms,
          visit_end_ms := cur.geo_time_ms, last_inside_ms := cur.geo_time_ms,
          visit_points := 1, in_visit := true, outside_started_ms := none,
          method := "start_at_inside" }
      else st
  { st1 with prev := cur, prev_inside := cur_inside }

/-- End-of-stream handling of `find_visits`: close any open visit at the last
known inside time (falling back to the final sample when that time is not
positive). -/
def finalizeVisits (params : VisitParams) (st : EngineState) : List Visit :=
  if st.in_visit then
    appendVisit st.visits st.visit_id st.visit_start_ms
      (if st.last_inside_ms > 0 then st.last_inside_ms else st.prev.geo_time_ms)
      st.visit_points st.method params.min_dwell_seconds
  else st.visits

/-- The stable time-sort performed at the top of `find_visits`
(`sorted(points, key=lambda p: p.geo_time_ms)`). -/
def sortPoints (points : List TrackPoint) : List TrackPoint :=
  points.mergeSort (fun a b => decide (a.geo_time_ms ≤ b.geo_time_ms))

/-- `visits.find_visits`, with the geofence and `is_inside_circle` abstracted
into the classifier `inside`. -/
def find_visits (inside : Rat → Rat → Bool) (points : List TrackPoint)
    (params : VisitParams) : List Visit :=
  match sortPoints points with
  | [] => []
  | p0 :: rest => finalizeVisits params (rest.foldl (stepVisit inside params) (initState inside p0))

/-- `visits.VisitsTotal`. -/
structure VisitsTotal where
  visits : Nat
  total_seconds : Rat
deriving DecidableEq, Repr

/-- `visits.sum_visits`: unconditional sum of visit durations. -/
def sum_visits (visits : List Visit) : VisitsTotal :=
  let p := visits.foldl (fun acc v => (acc.1 + v.duration_seconds, acc.2 + 1)) ((0 : Rat), (0 : Nat))
  ⟨p.2, p.1⟩

/-- `streamlit_app._overlap_seconds`: overlap of a visit with
`[start_ms, end_ms_exclusive)`, clamped at zero. -/
def overlap_seconds (visit : Visit) (start_ms end_ms_exclusive : Int) : Rat :=
  let lo := max visit.start_ms start_ms
  let hi := min visit.end_ms end_ms_exclusive
  max 0 (((hi - lo : Int) : Rat) / 1000)

/-- The summary accumulation of `streamlit_app.main` over the selected range:
visits with non-positive overlap are skipped, others add to the hit count and
the total. Returns `(hit, total_s)`. -/
def streamlitRangeSummary (visits : List Visit) (start_ms end_ms : Int) : Nat × Rat :=
  visits.foldl
    (fun acc v =>
      let s := overlap_seconds v start_ms end_ms
      if s ≤ 0 then acc else (acc.1 + 1, acc.2 + s))
    ((0 : Nat), (0 : Rat))

/-- `clipped_seconds` inside `cli._cmd_sum_visits`: overlap with the optional
range bounds, clamped at zero. -/
def cliClippedSeconds (start_bound end_bound : Option Int) (v_start v_end : Int) : Rat :=
  let lo := match start_bound with | none => v_start | some s => max v_start s
  let hi := match end_bound with | none => v_end | some e => min v_end e
  max 0 (((hi - lo : Int) : Rat) / 1000)

/-- The ranged branch of `cli._cmd_sum_visits`: sums clipped seconds over all
visits but reports `len(visits)` as the visit count. -/
def cliSumVisitsClipped (visits : List Visit) (start_bound end_bound : Option Int) : VisitsTotal :=
  ⟨visits.length, (visits.map (fun v => cliClippedSeconds start_bound end_bound v.start_ms v.end_ms)).sum⟩

/-! ### Concrete classifiers, parameter sets, inputs and states used by
examples, witnesses and counterexamples. The classifiers stand in for
`is_inside_circle` partially applied to a particular geofence. -/

/-- Classifier of a geofence containing every sample. -/
def insideAll : Rat → Rat → Bool := fun _ _ => true

/-- Classifier of a geofence containing exactly the samples with zero
latitude. -/
def insideLat0 : Rat → Rat → Bool := fun la _ => decide (la = 0)

/-- The source's default parameters (`VisitParams` field defaults, timezone
dropped): 12 h max gap, 5 min exit grace, 10 min transition gap, 60 s dwell. -/
def paramsDefault : VisitParams := ⟨43200, 300, 600, 60⟩

/-- Default parameters with `max_gap_seconds = 3600` (the C4 scenario). -/
def paramsGap3600 : VisitParams := ⟨3600, 300, 600, 60⟩

/-- Parameters with a zero exit grace (and zero dwell), exercising the
immediate-close behaviour of the exit branch. -/
def paramsGrace0 : VisitParams := ⟨3600, 0, 600, 0⟩

/-- The literal gap-splitting input: inside samples at t = 0 s and
t = 100000 s. -/
def ptsGapTwo : List TrackPoint := [⟨0, 0, 0⟩, ⟨100000000, 0, 0⟩]

/-- The gap-splitting input shifted to positive times: inside samples at
t = 60 s and t = 100060 s. -/
def ptsGapTwoPos : List TrackPoint := [⟨60000, 0, 0⟩, ⟨100060000, 0, 0⟩]

/-- A gap-splitting input where both sides meet the minimum dwell: inside
samples at t = 60 s, 180 s, 100000 s, 100120 s. -/
def ptsGapFour : List TrackPoint :=
  [⟨60000, 0, 0⟩, ⟨180000, 0, 0⟩, ⟨100000000, 0, 0⟩, ⟨100120000, 0, 0⟩]

/-- Three inside bursts separated by large gaps; the middle burst is a single
sample, so its candidate visit is discarded and its sequence number skipped. -/
def ptsGapFive : List TrackPoint :=
  [⟨60000, 0, 0⟩, ⟨180000, 0, 0⟩, ⟨100000000, 0, 0⟩, ⟨200000000, 0, 0⟩,
   ⟨200120000, 0, 0⟩]

/-- An inside sample exactly at epoch 0 followed by an outside sample at
t = 70 s. -/
def ptsEpochZero : List TrackPoint := [⟨0, 0, 0⟩, ⟨70000, 1, 0⟩]

/-- Inside samples at t = 60 s and 180 s followed by an outside sample at
t = 250 s. -/
def ptsTrailingOutside : List TrackPoint :=
  [⟨60000, 0, 0⟩, ⟨180000, 0, 0⟩, ⟨250000, 1, 0⟩]

/-- An engine state inside an open visit with no pending exit. -/
def stInsideOpen : EngineState :=
  { visits := [], in_visit := true, visit_start_ms := 1000,
    visit_end_ms := 10000, last_inside_ms := 10000,
    outside_started_ms := none, visit_points := 3, visit_id := 1,
    method := "start_at_first_inside", prev := ⟨10000, 0, 0⟩,
    prev_inside := true }

/-- An engine state inside an open visit with a pending exit that started at
t = 20 s. -/
def stPendingExit : EngineState :=
  { stInsideOpen with
    outside_started_ms := some 20000, prev := ⟨20000, 1, 0⟩,
    prev_inside := false }

/-- An end-of-stream engine state: open visit over `[60 s, 180 s]` with a
pending exit, the final processed sample being outside at t = 250 s. -/
def stEndOfStream : EngineState :=
  { visits := [], in_visit := true, visit_start_ms := 60000,
    visit_end_ms := 180000, last_inside_ms := 180000,
    outside_started_ms := some 250000, visit_points := 2, visit_id := 1,
    method := "start_at_first_inside", prev := ⟨250000, 1, 0⟩,
    prev_inside := false }

/-- A sample visit used by summary examples: `[1000 ms, 5000 ms]`. -/
def visitSample : Visit := ⟨1, 1000, 5000, 3, "exit_grace"⟩

/-- A visit lying entirely before the queried range used in the clipped
summary examples: `[0 ms, 1000 ms]`. -/
def visitOutsideRange : Visit := ⟨2, 0, 1000, 2, "exit_grace"⟩

/-- Two samples with distinct timestamps, pre-sorted. -/
def ptsPair : List TrackPoint := [⟨1000, 0, 0⟩, ⟨2000, 1, 0⟩]

/-- The same two samples presented in the opposite order. -/
def ptsPairRev : List TrackPoint := [⟨2000, 1, 0⟩, ⟨1000, 0, 0⟩]

/-- The engine-state invariant behind visit disjointness: the accumulated
visits are chained (`end ≤ next start`), every accumulated end lies at or
before the last processed sample, and while a visit is open its running
bounds are consistent with the last processed sample. -/
def SeparatedState (st : EngineState) : Prop :=
  List.Chain' (fun a b => a.end_ms ≤ b.start_ms) st.visits ∧
  (∀ v ∈ st.visits.getLast?, v.end_ms ≤ st.prev.geo_time_ms) ∧
  (st.in_visit = true →
    (∀ v ∈ st.visits.getLast?, v.end_ms ≤ st.visit_start_ms) ∧
    st.last_inside_ms ≤ st.prev.geo_time_ms ∧
    st.visit_end_ms ≤ st.prev.geo_time_ms ∧
    ∀ o ∈ st.outside_started_ms, st.last_inside_ms ≤ o ∧ o ≤ st.prev.geo_time_ms)

/-! ### Helper lemmas -/

/-- `sortPoints` leaves an already time-sorted list unchanged. -/
theorem sortPoints_of_sorted {l : List TrackPoint}
    (h : l.Pairwise (fun a b => decide (a.geo_time_ms ≤ b.geo_time_ms) = true)) :
    sortPoints l = l :=
  List.mergeSort_of_sorted h

/-- `appendVisit` appends exactly when the candidate has positive duration of
at least the minimum dwell. -/
theorem appendVisit_eq (visits : List Visit) (visit_id : Int)
    (start_ms end_ms : Int) (points : Nat) (method : String) (min_dwell_s : Rat) :
    appendVisit visits visit_id start_ms end_ms points method min_dwell_s =
      visits ++
        (if start_ms < end_ms ∧
            min_dwell_s ≤ ((end_ms - start_ms : Int) : Rat) / 1000 then
          [⟨visit_id, start_ms, end_ms, points, method⟩]
        else []) := by
  unfold appendVisit
  by_cases h1 : end_ms ≤ start_ms
  · rw [if_pos h1, if_neg, List.append_nil]
    rintro ⟨h, _⟩; omega
  · rw [if_neg h1]
    by_cases h2 : ((end_ms - start_ms : Int) : Rat) / 1000 < min_dwell_s
    · rw [if_pos h2, if_neg, List.append_nil]
      rintro ⟨_, h⟩; linarith
    · rw [if_neg h2, if_pos ⟨by omega, le_of_not_lt h2⟩]

/-- Every membership in an `appendVisit` result is either an old visit or the
freshly built one, which then passed both filters. -/
theorem mem_appendVisit {v : Visit} {visits : List Visit} {visit_id : Int}
    {start_ms end_ms : Int} {points : Nat} {method : String} {min_dwell_s : Rat}
    (h : v ∈ appendVisit visits visit_id start_ms end_ms points method min_dwell_s) :
    v ∈ visits ∨
      (v = ⟨visit_id, start_ms, end_ms, points, method⟩ ∧ start_ms < end_ms ∧
        min_dwell_s ≤ ((end_ms - start_ms : Int) : Rat) / 1000) := by
  rw [appendVisit_eq] at h
  rcases List.mem_append.mp h with h | h
  · exact Or.inl h
  · right
    by_cases hc : start_ms < end_ms ∧
        min_dwell_s ≤ ((end_ms - start_ms : Int) : Rat) / 1000
    · rw [if_pos hc] at h
      exact ⟨List.mem_singleton.mp h, hc⟩
    · rw [if_neg hc] at h
      simp at h

/-- The loop body always stores the current sample as the new `prev`. -/
theorem stepVisit_prev (inside : Rat → Rat → Bool) (params : VisitParams)
    (st : EngineState) (cur : TrackPoint) :
    (stepVisit inside params st cur).prev = cur := rfl

/-- Each loop iteration either leaves the visit list unchanged (not lowering
the sequence counter) or performs exactly one closing attempt through the
filter, consuming one sequence number. -/
theorem stepVisit_cases (inside : Rat → Rat → Bool) (params : VisitParams)
    (st : EngineState) (cur : TrackPoint) :
    ((stepVisit inside params st cur).visits = st.visits ∧
      st.visit_id ≤ (stepVisit inside params st cur).visit_id) ∨
    (∃ s e pts m,
      (stepVisit inside params st cur).visits =
        appendVisit st.visits st.visit_id s e pts m params.min_dwell_seconds ∧
      (stepVisit inside params st cur).visit_id = st.visit_id + 1) := by
  simp only [stepVisit]
  repeat' split
  all_goals first
    | exact Or.inl ⟨rfl, le_refl _⟩
    | exact Or.inr ⟨_, _, _, _, rfl, rfl⟩

/-- Membership in a `finalizeVisits` result is membership in the engine's
accumulated list or in a final closing attempt that passed the filter. -/
theorem mem_finalizeVisits {v : Visit} {params : VisitParams} {st : EngineState}
    (h : v ∈ finalizeVisits params st) :
    v ∈ st.visits ∨
      ∃ s e pts m, v ∈ appendVisit st.visits st.visit_id s e pts m params.min_dwell_seconds := by
  unfold finalizeVisits at h
  by_cases hiv : st.in_visit = true
  · rw [if_pos hiv] at h
    exact Or.inr ⟨_, _, _, _, h⟩
  · rw [if_neg hiv] at h
    exact Or.inl h

/-- Every visit accumulated across the loop satisfies the positive-duration
and minimum-dwell bounds, provided the starting state's visits do. -/
theorem foldl_visits_dwell (inside : Rat → Rat → Bool) (params : VisitParams) :
    ∀ (l : List TrackPoint) (st : EngineState),
      (∀ v ∈ st.visits, v.start_ms < v.end_ms ∧
        params.min_dwell_seconds ≤ ((v.end_ms - v.start_ms : Int) : Rat) / 1000) →
      ∀ v ∈ (l.foldl (stepVisit inside params) st).visits,
        v.start_ms < v.end_ms ∧
          params.min_dwell_seconds ≤ ((v.end_ms - v.start_ms : Int) : Rat) / 1000 := by
  intro l
  induction l with
  | nil => intro st hst; exact hst
  | cons c t ih =>
    intro st hst
    refine ih _ ?_
    intro v hv
    rcases stepVisit_cases inside params st c with ⟨heq, _⟩ | ⟨s, e, pts, m, heq, _⟩
    · rw [heq] at hv; exact hst v hv
    · rw [heq] at hv
      rcases mem_appendVisit hv with h | ⟨hveq, h1, h2⟩
      · exact hst v h
      · subst hveq; exact ⟨h1, h2⟩

/-- C1: For every input point sequence, classifier (geofence) and
parameter set, every Visit returned by `find_visits` satisfies
`start_ms < end_ms` and `(end_ms - start_ms) / 1000 ≥ min_dwell_seconds`; a
closing candidate with `end ≤ start` or duration below the minimum dwell is
never emitted. -/
theorem C1_emitted_visit_bounds (inside : Rat → Rat → Bool)
    (points : List TrackPoint) (params : VisitParams) :
    ∀ v ∈ find_visits inside points params,
      v.start_ms < v.end_ms ∧
        params.min_dwell_seconds ≤ ((v.end_ms - v.start_ms : Int) : Rat) / 1000 := by
  intro v hv
  unfold find_visits at hv
  rcases hm : sortPoints points with _ | ⟨p0, rest⟩
  · rw [hm] at hv; simp at hv
  · rw [hm] at hv
    have hfold := foldl_visits_dwell inside params rest (initState inside p0) ?_
    · rcases mem_finalizeVisits hv with h | ⟨s, e, pts, m, h⟩
      · exact hfold v h
      · rcases mem_appendVisit h with h' | ⟨hveq, h1, h2⟩
        · exact hfold v h'
        · subst hveq; exact ⟨h1, h2⟩
    · intro w hw
      unfold initState at hw
      by_cases hc : inside p0.latitude p0.longitude = true
      · rw [if_pos hc] at hw; simp at hw
      · rw [if_neg hc] at hw; simp at hw

/-- Concrete run used as the C1 witness: two inside samples then a trailing
outside sample within the exit grace. -/
theorem find_visits_trailing_eval :
    find_visits insideLat0 ptsTrailingOutside paramsGap3600 =
      [⟨1, 60000, 180000, 2, "start_at_first_inside"⟩] := by
  rw [find_visits, sortPoints_of_sorted (by decide)]
  norm_num [ptsTrailingOutside, stepVisit, initState, boundary_ms, appendVisit,
    finalizeVisits, insideLat0, paramsGap3600, List.foldl]

/-- Witness for C1: the visit emitted on a concrete run satisfies the bounds. -/
theorem C1_emitted_visit_bounds_witness :
    (⟨1, 60000, 180000, 2, "start_at_first_inside"⟩ : Visit) ∈
        find_visits insideLat0 ptsTrailingOutside paramsGap3600 ∧
      ((⟨1, 60000, 180000, 2, "start_at_first_inside"⟩ : Visit).start_ms <
          (⟨1, 60000, 180000, 2, "start_at_first_inside"⟩ : Visit).end_ms ∧
        paramsGap3600.min_dwell_seconds ≤
          (((⟨1, 60000, 180000, 2, "start_at_first_inside"⟩ : Visit).end_ms -
              (⟨1, 60000, 180000, 2, "start_at_first_inside"⟩ : Visit).start_ms : Int) : Rat) /
            1000) := by
  have h : (⟨1, 60000, 180000, 2, "start_at_first_inside"⟩ : Visit) ∈
      find_visits insideLat0 ptsTrailingOutside paramsGap3600 := by
    rw [find_visits_trailing_eval]; exact List.mem_singleton.mpr rfl
  exact ⟨h, C1_emitted_visit_bounds insideLat0 ptsTrailingOutside paramsGap3600 _ h⟩

/-- C3: The boundary estimator returns `prev_time` on out-of-order pairs,
the floor midpoint when the gap in seconds is within the threshold, and the
preferred side otherwise. -/
theorem C3_boundary_estimator (prev_ms cur_ms : Int) (threshold : Rat)
    (prefer : String) :
    (cur_ms < prev_ms → boundary_ms prev_ms cur_ms threshold prefer = prev_ms) ∧
    (prev_ms ≤ cur_ms → ((cur_ms - prev_ms : Int) : Rat) / 1000 ≤ threshold →
      boundary_ms prev_ms cur_ms threshold prefer =
        prev_ms + (cur_ms - prev_ms).fdiv 2) ∧
    (prev_ms ≤ cur_ms → threshold < ((cur_ms - prev_ms : Int) : Rat) / 1000 →
      boundary_ms prev_ms cur_ms threshold prefer =
        if prefer = "prev" then prev_ms else cur_ms) := by
  refine ⟨fun h => ?_, fun h1 h2 => ?_, fun h1 h2 => ?_⟩
  · unfold boundary_ms; rw [if_pos h]
  · unfold boundary_ms; rw [if_neg (not_lt.mpr h1), if_pos h2]
  · unfold boundary_ms; rw [if_neg (not_lt.mpr h1), if_neg (not_le.mpr h2)]

/-- Witness for C3: all three boundary-estimator cases at concrete inputs. -/
theorem C3_boundary_estimator_witness :
    boundary_ms 10000 2000 600 "cur" = 10000 ∧
    boundary_ms 0 10000 600 "cur" = 5000 ∧
    boundary_ms 0 10000000 600 "cur" = 10000000 :=
  ⟨(C3_boundary_estimator 10000 2000 600 "cur").1 (by decide),
    ((C3_boundary_estimator 0 10000 600 "cur").2.1 (by decide)
      (by norm_num)).trans (by decide),
    ((C3_boundary_estimator 0 10000000 600 "cur").2.2 (by decide)
      (by norm_num)).trans (by decide)⟩

/-- C10: `Visit.duration_seconds` is the zero-clamped duration, hence
non-negative for every visit value (including ones reconstructed from a
hand-edited CSV with `end < start`), and `sum_visits` never returns a
negative `total_seconds`. -/
theorem C10_duration_clamped_sum_nonneg :
    (∀ v : Visit,
      v.duration_seconds = max 0 (((v.end_ms - v.start_ms : Int) : Rat) / 1000) ∧
        0 ≤ v.duration_seconds) ∧
    ∀ visits : List Visit, 0 ≤ (sum_visits visits).total_seconds := by
  constructor
  · exact fun v => ⟨rfl, le_max_left _ _⟩
  · intro visits
    have aux : ∀ (l : List Visit) (a : Rat) (n : Nat), 0 ≤ a →
        0 ≤ (l.foldl (fun acc v => (acc.1 + v.duration_seconds, acc.2 + 1)) (a, n)).1 := by
      intro l
      induction l with
      | nil => exact fun a n ha => ha
      | cons v t ih =>
        exact fun a n ha => ih _ _ (add_nonneg ha (le_max_left _ _))
    exact aux visits 0 0 le_rfl

/-- Both branches of `initState` start with an empty visit list. -/
theorem initState_visits (inside : Rat → Rat → Bool) (p0 : TrackPoint) :
    (initState inside p0).visits = [] := by
  unfold initState; split <;> rfl

/-- Both branches of `initState` start the sequence counter at 1. -/
theorem initState_visit_id (inside : Rat → Rat → Bool) (p0 : TrackPoint) :
    (initState inside p0).visit_id = 1 := by
  unfold initState; split <;> rfl

/-- A closing attempt through the filter keeps visit ids strictly increasing
and bounded by the next counter value. -/
theorem appendVisit_ids {visits : List Visit} {visit_id : Int} (s e : Int)
    (pts : Nat) (m : String) (md : Rat)
    (hlt : ∀ v ∈ visits, v.visit_id < visit_id)
    (hpw : List.Pairwise (fun a b => a.visit_id < b.visit_id) visits) :
    List.Pairwise (fun a b => a.visit_id < b.visit_id)
      (appendVisit visits visit_id s e pts m md) ∧
    ∀ v ∈ appendVisit visits visit_id s e pts m md, v.visit_id < visit_id + 1 := by
  rw [appendVisit_eq]
  by_cases hc : s < e ∧ md ≤ ((e - s : Int) : Rat) / 1000
  · rw [if_pos hc]
    constructor
    · rw [List.pairwise_append]
      refine ⟨hpw, List.pairwise_singleton _ _, ?_⟩
      intro a ha b hb
      rw [List.mem_singleton] at hb
      subst hb
      exact hlt a ha
    · intro v hv
      rcases List.mem_append.mp hv with h | h
      · have := hlt v h; omega
      · rw [List.mem_singleton] at h; subst h; exact lt_add_one _
  · rw [if_neg hc, List.append_nil]
    exact ⟨hpw, fun v hv => by have := hlt v hv; omega⟩

/-- Across the loop, accumulated visit ids stay strictly increasing and below
the current sequence counter. -/
theorem foldl_visit_ids (inside : Rat → Rat → Bool) (params : VisitParams) :
    ∀ (l : List TrackPoint) (st : EngineState),
      (∀ v ∈ st.visits, v.visit_id < st.visit_id) →
      List.Pairwise (fun a b => a.visit_id < b.visit_id) st.visits →
      (∀ v ∈ (l.foldl (stepVisit inside params) st).visits,
        v.visit_id < (l.foldl (stepVisit inside params) st).visit_id) ∧
      List.Pairwise (fun a b => a.visit_id < b.visit_id)
        (l.foldl (stepVisit inside params) st).visits := by
  intro l
  induction l with
  | nil => intro st h1 h2; exact ⟨h1, h2⟩
  | cons c t ih =>
    intro st h1 h2
    refine ih _ ?_ ?_
    · intro v hv
      rcases stepVisit_cases inside params st c with ⟨heq, hle⟩ | ⟨s, e, pts, m, heq, hid⟩
      · rw [heq] at hv; have := h1 v hv; omega
      · rw [heq] at hv
        rw [hid]
        exact (appendVisit_ids s e pts m params.min_dwell_seconds h1 h2).2 v hv
    · rcases stepVisit_cases inside params st c with ⟨heq, _⟩ | ⟨s, e, pts, m, heq, _⟩
      · rw [heq]; exact h2
      · rw [heq]
        exact (appendVisit_ids s e pts m params.min_dwell_seconds h1 h2).1

/-- C6: Visit sequence numbers are strictly increasing across any single
run (every closing attempt consumes one number), and a rejected candidate
leaves a gap: on a run whose middle candidate is discarded, the emitted ids
are `[1, 3]`. -/
theorem C6_visit_ids_strictly_increasing :
    (∀ (inside : Rat → Rat → Bool) (points : List TrackPoint) (params : VisitParams),
      List.Pairwise (fun a b => a.visit_id < b.visit_id)
        (find_visits inside points params)) ∧
    (find_visits insideAll ptsGapFive paramsGap3600).map Visit.visit_id = [1, 3] := by
  constructor
  · intro inside points params
    unfold find_visits
    rcases hm : sortPoints points with _ | ⟨p0, rest⟩
    · exact List.Pairwise.nil
    · have h0 : ∀ v ∈ (initState inside p0).visits, v.visit_id < (initState inside p0).visit_id := by
        rw [initState_visits]; intro v hv; simp at hv
      have h0' : List.Pairwise (fun a b => a.visit_id < b.visit_id) (initState inside p0).visits := by
        rw [initState_visits]; exact List.Pairwise.nil
      have hfold := foldl_visit_ids inside params rest (initState inside p0) h0 h0'
      show List.Pairwise _
        (finalizeVisits params (rest.foldl (stepVisit inside params) (initState inside p0)))
      unfold finalizeVisits
      split
      · exact (appendVisit_ids _ _ _ _ params.min_dwell_seconds hfold.1 hfold.2).1
      · exact hfold.2
  · rw [find_visits, sortPoints_of_sorted (by decide)]
    norm_num [ptsGapFive, stepVisit, initState, boundary_ms, appendVisit,
      finalizeVisits, insideAll, paramsGap3600, List.foldl]

/-- C4 (counterexample): On the literal gap-splitting input (inside
samples at t = 0 s and t = 100000 s, `max_gap = 3600 s`) the engine returns a
single visit spanning the whole gap, not two visits: the epoch-0 inside
sample makes `last_inside_ms = 0`, so the split guard `last_inside_ms > 0`
never fires. -/
theorem C4_counterexample :
    find_visits insideAll ptsGapTwo paramsGap3600 =
      [⟨1, 0, 100000000, 2, "start_at_first_inside"⟩] := by
  rw [find_visits, sortPoints_of_sorted (by decide)]
  norm_num [ptsGapTwo, stepVisit, initState, boundary_ms, appendVisit,
    finalizeVisits, insideAll, paramsGap3600, List.foldl]

/-- C4 (amended): With positive timestamps the inside-gap split does
fire, but a two-sample input produces two zero-length candidates that the
filter discards, so nothing is emitted; two visits appear exactly when each
burst also meets the minimum dwell, the first then ending at its last inside
sample before the gap and the second starting at t = 100000 s. -/
theorem C4_gap_split :
    find_visits insideAll ptsGapTwoPos paramsGap3600 = [] ∧
    find_visits insideAll ptsGapFour paramsGap3600 =
      [⟨1, 60000, 180000, 2, "split_on_inside_gap"⟩,
        ⟨2, 100000000, 100120000, 2, "restart_after_gap"⟩] := by
  constructor <;>
  · rw [find_visits, sortPoints_of_sorted (by decide)]
    norm_num [ptsGapTwoPos, ptsGapFour, stepVisit, initState, boundary_ms,
      appendVisit, finalizeVisits, insideAll, paramsGap3600, List.foldl]

/-- The dashboard's range loop accumulates exactly the count and the overlap
sum of the visits with positive overlap. -/
theorem streamlitRangeSummary_foldl (start_ms end_ms : Int) :
    ∀ (visits : List Visit) (n : Nat) (a : Rat),
      visits.foldl
        (fun acc v =>
          let s := overlap_seconds v start_ms end_ms
          if s ≤ 0 then acc else (acc.1 + 1, acc.2 + s)) (n, a) =
        (n + (visits.filter (fun v => decide (0 < overlap_seconds v start_ms end_ms))).length,
          a + ((visits.filter (fun v => decide (0 < overlap_seconds v start_ms end_ms))).map
            (fun v => overlap_seconds v start_ms end_ms)).sum) := by
  intro visits
  induction visits with
  | nil => intro n a; simp
  | cons v t ih =>
    intro n a
    by_cases h : overlap_seconds v start_ms end_ms ≤ 0
    · have hd : decide (0 < overlap_seconds v start_ms end_ms) = false :=
        decide_eq_false (not_lt.mpr h)
      simp only [List.foldl_cons]
      rw [if_pos h, ih n a, List.filter_cons, hd]
      simp
    · have hd : decide (0 < overlap_seconds v start_ms end_ms) = true :=
        decide_eq_true (lt_of_not_le h)
      simp only [List.foldl_cons]
      rw [if_neg h, ih (n + 1) (a + overlap_seconds v start_ms end_ms),
        List.filter_cons, hd]
      simp only [if_true, List.length_cons, List.map_cons, List.sum_cons,
        Prod.mk.injEq]
      constructor
      · omega
      · ring

/-- Overlap seconds are clamped, hence non-negative. -/
theorem overlap_seconds_nonneg (v : Visit) (start_ms end_ms : Int) :
    0 ≤ overlap_seconds v start_ms end_ms :=
  le_max_left _ _

/-- Dropping the zero-overlap visits does not change the overlap sum. -/
theorem sum_overlap_filter (start_ms end_ms : Int) :
    ∀ visits : List Visit,
      (visits.map (fun v => overlap_seconds v start_ms end_ms)).sum =
        ((visits.filter (fun v => decide (0 < overlap_seconds v start_ms end_ms))).map
          (fun v => overlap_seconds v start_ms end_ms)).sum := by
  intro visits
  induction visits with
  | nil => rfl
  | cons v t ih =>
    by_cases h : 0 < overlap_seconds v start_ms end_ms
    · simp only [List.map_cons, List.sum_cons, List.filter_cons, decide_eq_true h, ih]
      simp
    · have h0 : overlap_seconds v start_ms end_ms = 0 :=
        le_antisymm (not_lt.mp h) (overlap_seconds_nonneg v start_ms end_ms)
      have hd : decide (0 < overlap_seconds v start_ms end_ms) = false := by
        simp [h]
      simp only [List.map_cons, List.sum_cons, List.filter_cons, hd, h0, zero_add, ih]
      simp

/-- C5 (amended): Both clipped summaries credit each visit with
`max(0, (min(end, rangeEnd) - max(start, rangeStart)) / 1000)` overlap
seconds and only positive overlaps contribute to the totals; the dashboard's
hit count includes only visits with positive overlap, but the CLI
`sum-visits` count is the number of all loaded visits, regardless of
overlap. -/
theorem C5_clipped_summary (visits : List Visit) (start_ms end_ms : Int) :
    (∀ v : Visit,
      overlap_seconds v start_ms end_ms =
          max 0 (((min v.end_ms end_ms - max v.start_ms start_ms : Int) : Rat) / 1000) ∧
        cliClippedSeconds (some start_ms) (some end_ms) v.start_ms v.end_ms =
          overlap_seconds v start_ms end_ms) ∧
    streamlitRangeSummary visits start_ms end_ms =
      ((visits.filter (fun v => decide (0 < overlap_seconds v start_ms end_ms))).length,
        ((visits.filter (fun v => decide (0 < overlap_seconds v start_ms end_ms))).map
          (fun v => overlap_seconds v start_ms end_ms)).sum) ∧
    cliSumVisitsClipped visits (some start_ms) (some end_ms) =
      ⟨visits.length,
        ((visits.filter (fun v => decide (0 < overlap_seconds v start_ms end_ms))).map
          (fun v => overlap_seconds v start_ms end_ms)).sum⟩ := by
  refine ⟨fun v => ⟨rfl, rfl⟩, ?_, ?_⟩
  · unfold streamlitRangeSummary
    rw [streamlitRangeSummary_foldl]
    simp
  · show VisitsTotal.mk visits.length
      ((visits.map (fun v => overlap_seconds v start_ms end_ms)).sum) = _
    rw [sum_overlap_filter]

/-- C5 (counterexample): A visit entirely outside the queried range has
zero overlap yet is still counted by the CLI's clipped summary. -/
theorem C5_counterexample :
    overlap_seconds visitOutsideRange 2000 4000 = 0 ∧
    (cliSumVisitsClipped [visitOutsideRange] (some 2000) (some 4000)).visits = 1 := by
  constructor
  · norm_num [overlap_seconds, visitOutsideRange]
  · rfl

/-- Concrete run whose last sample is an inside point at epoch 0 followed by
an outside sample: the fallback branch of the final close fires. -/
theorem find_visits_epoch_zero_eval :
    find_visits insideLat0 ptsEpochZero paramsGap3600 =
      [⟨1, 0, 70000, 1, "start_at_first_inside"⟩] := by
  rw [find_visits, sortPoints_of_sorted (by decide)]
  norm_num [ptsEpochZero, stepVisit, initState, boundary_ms, appendVisit,
    finalizeVisits, insideLat0, paramsGap3600, List.foldl]

/-- C7 (counterexample): With the last inside sample exactly at epoch 0,
the open visit is closed at the final, outside sample's timestamp
(70000 ms), not at `last_inside` (0): the guard `last_inside_ms > 0` treats
the genuine epoch-0 inside time as unset. -/
theorem C7_counterexample :
    find_visits insideLat0 ptsEpochZero paramsGap3600 =
      [⟨1, 0, 70000, 1, "start_at_first_inside"⟩] ∧
    insideLat0 1 0 = false ∧
    (ptsEpochZero.map TrackPoint.geo_time_ms) = [0, 70000] := by
  exact ⟨find_visits_epoch_zero_eval, by decide, by decide⟩

/-- C7 (amended): At end of stream with an open visit whose last inside
time is positive, the visit is closed at `end = last_inside` (never at the
final, possibly-outside sample) and carries the method tag recorded when the
visit was opened; the candidate still passes through the min-dwell filter. -/
theorem C7_final_close (params : VisitParams) (st : EngineState)
    (hin : st.in_visit = true) (hpos : 0 < st.last_inside_ms) :
    finalizeVisits params st =
      st.visits ++
        (if st.visit_start_ms < st.last_inside_ms ∧
            params.min_dwell_seconds ≤
              ((st.last_inside_ms - st.visit_start_ms : Int) : Rat) / 1000 then
          [⟨st.visit_id, st.visit_start_ms, st.last_inside_ms, st.visit_points,
            st.method⟩]
        else []) := by
  unfold finalizeVisits
  rw [if_pos hin, if_pos hpos, appendVisit_eq]

/-- Witness for C7 (amended): finalizing a concrete pending-exit state closes
the visit at its last inside time with the opening method tag. -/
theorem C7_final_close_witness :
    stEndOfStream.in_visit = true ∧ (0 : Int) < stEndOfStream.last_inside_ms ∧
    finalizeVisits paramsGap3600 stEndOfStream =
      [⟨1, 60000, 180000, 2, "start_at_first_inside"⟩] := by
  refine ⟨rfl, by decide, ?_⟩
  have h := C7_final_close paramsGap3600 stEndOfStream rfl (by decide)
  rw [h]
  norm_num [stEndOfStream, paramsGap3600]

/-- C2 (amended): Provided `exit_grace_seconds` is positive: an
outside-classified sample seen while `INSIDE` (no pending exit) only records
`outside_started = cur.time` and keeps the visit open; with a pending exit
`outside_started = o`, the visit is closed exactly when
`(cur.time - o) / 1000 ≥ exit_grace`, with exit boundary
`boundary_ms last_inside o transition_gap "prev"` and end
`max(current end, exit)`, and otherwise the engine stays pending. (With
`exit_grace ≤ 0` the recording sample itself closes the visit, refuting the
unconditional claim.) -/
theorem C2_exit_transitions (inside : Rat → Rat → Bool) (params : VisitParams)
    (st : EngineState) (cur : TrackPoint)
    (hgrace : 0 < params.exit_grace_seconds)
    (hin : st.in_visit = true)
    (hout : inside cur.latitude cur.longitude = false) :
    (st.outside_started_ms = none →
      stepVisit inside params st cur =
        { st with
          outside_started_ms := some cur.geo_time_ms, prev := cur,
          prev_inside := false }) ∧
    (∀ o, st.outside_started_ms = some o →
      (params.exit_grace_seconds ≤ ((cur.geo_time_ms - o : Int) : Rat) / 1000 →
        stepVisit inside params st cur =
          { st with
            visits := appendVisit st.visits st.visit_id st.visit_start_ms
              (max st.visit_end_ms
                (boundary_ms st.last_inside_ms o params.transition_gap_seconds
                  "prev"))
              st.visit_points "exit_grace" params.min_dwell_seconds,
            visit_id := st.visit_id + 1, in_visit := false, visit_points := 0,
            outside_started_ms := none,
            visit_end_ms := max st.visit_end_ms
              (boundary_ms st.last_inside_ms o params.transition_gap_seconds
                "prev"),
            prev := cur, prev_inside := false }) ∧
      (((cur.geo_time_ms - o : Int) : Rat) / 1000 < params.exit_grace_seconds →
        stepVisit inside params st cur =
          { st with
            outside_started_ms := some o, prev := cur,
            prev_inside := false })) := by
  refine ⟨fun hos => ?_, fun o hos => ⟨fun hge => ?_, fun hlt => ?_⟩⟩
  · simp [stepVisit, hin, hout, hos, not_le.mpr hgrace]
  · have hoc : o ≤ cur.geo_time_ms := by
      by_contra hlt'
      push_neg at hlt'
      have hneg : ((cur.geo_time_ms - o : Int) : Rat) < 0 := by
        exact_mod_cast (by omega : (cur.geo_time_ms - o : Int) < 0)
      have hdiv : ((cur.geo_time_ms - o : Int) : Rat) / 1000 < 0 :=
        div_neg_of_neg_of_pos hneg (by norm_num)
      linarith
    push_cast at hge
    simp [stepVisit, hin, hout, hos, hoc, hge]
  · by_cases hoc : o ≤ cur.geo_time_ms
    · have hng : ¬params.exit_grace_seconds ≤
          ((cur.geo_time_ms - o : Int) : Rat) / 1000 := not_le.mpr hlt
      push_cast at hng
      simp [stepVisit, hin, hout, hos, hoc, hng]
    · have hng : ¬params.exit_grace_seconds ≤ (0 : Rat) := not_le.mpr hgrace
      simp [stepVisit, hin, hout, hos, hoc, hng]

/-- C2 (counterexample): With `exit_grace_seconds = 0`, the very first
outside sample seen while `INSIDE` does not merely record the pending exit:
it immediately closes the visit (the engine leaves the visit state and emits
the closed visit in the same step). -/
theorem C2_counterexample :
    stInsideOpen.in_visit = true ∧ stInsideOpen.outside_started_ms = none ∧
    insideLat0 1 0 = false ∧ paramsGrace0.exit_grace_seconds = 0 ∧
    (stepVisit insideLat0 paramsGrace0 stInsideOpen ⟨20000, 1, 0⟩).in_visit = false ∧
    (stepVisit insideLat0 paramsGrace0 stInsideOpen ⟨20000, 1, 0⟩).visits =
      [⟨1, 1000, 15000, 3, "exit_grace"⟩] := by
  have hfd : Int.fdiv 10000 2 = 5000 := by decide
  refine ⟨rfl, rfl, by decide, rfl, ?_, ?_⟩ <;>
    norm_num [stepVisit, stInsideOpen, paramsGrace0, insideLat0, boundary_ms,
      appendVisit, hfd, sup_eq_max, max_def]

/-- Witness for C2 (amended): with the default positive grace, an outside
sample first only records the pending exit, and a 380 s outside stretch then
closes the visit. -/
theorem C2_exit_transitions_witness :
    (0 : Rat) < paramsGap3600.exit_grace_seconds ∧
    stepVisit insideLat0 paramsGap3600 stInsideOpen ⟨20000, 1, 0⟩ = stPendingExit ∧
    (stepVisit insideLat0 paramsGap3600 stPendingExit ⟨400000, 1, 0⟩).in_visit = false := by
  have hg : (0 : Rat) < paramsGap3600.exit_grace_seconds := by
    norm_num [paramsGap3600]
  have hthm1 := C2_exit_transitions insideLat0 paramsGap3600 stInsideOpen
    ⟨20000, 1, 0⟩ hg rfl (by decide)
  have hthm2 := C2_exit_transitions insideLat0 paramsGap3600 stPendingExit
    ⟨400000, 1, 0⟩ hg rfl (by decide)
  have h1 := hthm1.1 rfl
  have h2 := (hthm2.2 20000 rfl).1 (by norm_num [paramsGap3600])
  exact ⟨hg, h1, by rw [h2]⟩

/-- The sort at the top of `find_visits` produces a time-sorted list. -/
theorem sortPoints_sorted (l : List TrackPoint) :
    (sortPoints l).Pairwise (fun a b => a.geo_time_ms ≤ b.geo_time_ms) := by
  have h := @List.sorted_mergeSort TrackPoint
    (fun a b : TrackPoint => decide (a.geo_time_ms ≤ b.geo_time_ms))
    (fun a b c hab hbc => by
      simp only [decide_eq_true_eq] at *
      omega)
    (fun a b => by
      simp only [Bool.or_eq_true, decide_eq_true_eq]
      omega) l
  exact h.imp (fun hab => of_decide_eq_true hab)

/-- The sort result is a permutation of the input. -/
theorem sortPoints_perm (l : List TrackPoint) : (sortPoints l).Perm l :=
  List.mergeSort_perm l _

/-- When all timestamps are pairwise distinct, sorting any permutation of the
input by time yields one and the same list. -/
theorem sortPoints_eq_of_perm {l l' : List TrackPoint} (hp : l'.Perm l)
    (hnd : (l.map TrackPoint.geo_time_ms).Nodup) :
    sortPoints l' = sortPoints l := by
  have strict : ∀ {m : List TrackPoint},
      m.Pairwise (fun a b => a.geo_time_ms ≤ b.geo_time_ms) →
      (m.map TrackPoint.geo_time_ms).Nodup →
      m.Pairwise (fun a b => a.geo_time_ms < b.geo_time_ms) := by
    intro m hpw hnd'
    have hne : m.Pairwise (fun a b => a.geo_time_ms ≠ b.geo_time_ms) :=
      List.pairwise_map.mp hnd'
    exact (hpw.and hne).imp (fun h => lt_of_le_of_ne h.1 h.2)
  have hperm : (sortPoints l').Perm (sortPoints l) :=
    ((sortPoints_perm l').trans hp).trans (sortPoints_perm l).symm
  have hnd1 : ((sortPoints l).map TrackPoint.geo_time_ms).Nodup :=
    (((sortPoints_perm l).map TrackPoint.geo_time_ms).nodup_iff).mpr hnd
  have hnd2 : ((sortPoints l').map TrackPoint.geo_time_ms).Nodup :=
    ((((sortPoints_perm l').trans hp).map TrackPoint.geo_time_ms).nodup_iff).mpr hnd
  haveI : IsAntisymm TrackPoint (fun a b => a.geo_time_ms < b.geo_time_ms) :=
    ⟨fun a b h1 h2 => absurd (h1.trans h2) (lt_irrefl _)⟩
  exact List.eq_of_perm_of_sorted hperm
    (strict (sortPoints_sorted l') hnd2) (strict (sortPoints_sorted l) hnd1)

/-- C8: For inputs with pairwise-distinct timestamps, `find_visits` is
order-insensitive: any permutation of the samples yields exactly the same
visit list. -/
theorem C8_order_insensitive (inside : Rat → Rat → Bool) (params : VisitParams)
    (l l' : List TrackPoint) (hp : l'.Perm l)
    (hnd : (l.map TrackPoint.geo_time_ms).Nodup) :
    find_visits inside l' params = find_visits inside l params := by
  unfold find_visits
  rw [sortPoints_eq_of_perm hp hnd]

/-- Witness for C8: reversing a two-sample input with distinct timestamps
leaves the output unchanged. -/
theorem C8_order_insensitive_witness :
    ptsPairRev.Perm ptsPair ∧ (ptsPair.map TrackPoint.geo_time_ms).Nodup ∧
    find_visits insideLat0 ptsPairRev paramsGap3600 =
      find_visits insideLat0 ptsPair paramsGap3600 := by
  have hp : ptsPairRev.Perm ptsPair := by decide
  have hnd : (ptsPair.map TrackPoint.geo_time_ms).Nodup := by decide
  exact ⟨hp, hnd,
    C8_order_insensitive insideLat0 paramsGap3600 ptsPair ptsPairRev hp hnd⟩

/-- The boundary estimate never falls before the earlier timestamp. -/
theorem boundary_ms_ge (p c : Int) (g : Rat) (pref : String) (h : p ≤ c) :
    p ≤ boundary_ms p c g pref := by
  unfold boundary_ms
  split_ifs with h1 h2 h3
  · exact le_refl p
  · rw [Int.fdiv_eq_ediv _ (by norm_num)]
    omega
  · exact le_refl p
  · exact h

/-- The boundary estimate never exceeds the later timestamp. -/
theorem boundary_ms_le (p c : Int) (g : Rat) (pref : String) (h : p ≤ c) :
    boundary_ms p c g pref ≤ c := by
  unfold boundary_ms
  split_ifs with h1 h2 h3
  · exact h
  · rw [Int.fdiv_eq_ediv _ (by norm_num)]
    omega
  · exact h
  · exact le_refl c

/-- A closing attempt keeps the visit list chained when the candidate starts
no earlier than the last accumulated end. -/
theorem appendVisit_chain {visits : List Visit} {visit_id s e : Int}
    {pts : Nat} {m : String} {md : Rat}
    (h1 : List.Chain' (fun a b => a.end_ms ≤ b.start_ms) visits)
    (hlast : ∀ v ∈ visits.getLast?, v.end_ms ≤ s) :
    List.Chain' (fun a b => a.end_ms ≤ b.start_ms)
      (appendVisit visits visit_id s e pts m md) := by
  rw [appendVisit_eq]
  by_cases hc : s < e ∧ md ≤ ((e - s : Int) : Rat) / 1000
  · rw [if_pos hc]
    refine List.chain'_append.mpr ⟨h1, List.chain'_singleton _, ?_⟩
    intro a ha b hb
    simp only [List.head?_cons, Option.mem_def, Option.some.injEq] at hb
    subst hb
    exact hlast a ha
  · rw [if_neg hc, List.append_nil]
    exact h1

/-- A closing attempt keeps every accumulated end below a bound that also
bounds the candidate's end. -/
theorem appendVisit_getLast {visits : List Visit} {visit_id s e : Int}
    {pts : Nat} {m : String} {md : Rat} {bound : Int}
    (hold : ∀ v ∈ visits.getLast?, v.end_ms ≤ bound) (hnew : e ≤ bound) :
    ∀ v ∈ (appendVisit visits visit_id s e pts m md).getLast?, v.end_ms ≤ bound := by
  rw [appendVisit_eq]
  by_cases hc : s < e ∧ md ≤ ((e - s : Int) : Rat) / 1000
  · rw [if_pos hc]
    intro v hv
    rw [List.getLast?_concat] at hv
    simp only [Option.mem_def, Option.some.injEq] at hv
    subst hv
    exact hnew
  · rw [if_neg hc, List.append_nil]
    exact hold

/-- One engine step preserves the disjointness invariant when the samples are
processed in time order. -/
theorem stepVisit_separated (inside : Rat → Rat → Bool) (params : VisitParams)
    (st : EngineState) (cur : TrackPoint)
    (hord : st.prev.geo_time_ms ≤ cur.geo_time_ms)
    (hI : SeparatedState st) : SeparatedState (stepVisit inside params st cur) := by
  obtain ⟨h1, h2, h3⟩ := hI
  by_cases hin : st.in_visit = true
  · obtain ⟨h31, h32, h33, h34⟩ := h3 hin
    by_cases hci : inside cur.latitude cur.longitude = true
    · by_cases hg : st.last_inside_ms > 0 ∧
          ((cur.geo_time_ms - st.last_inside_ms : Int) : Rat) / 1000 >
            params.max_gap_seconds
      · -- forced split on a large inside-to-inside gap
        have hstep : stepVisit inside params st cur =
            { st with
              visits := appendVisit st.visits st.visit_id st.visit_start_ms
                st.last_inside_ms st.visit_points "split_on_inside_gap"
                params.min_dwell_seconds,
              visit_id := st.visit_id + 1,
              visit_start_ms := cur.geo_time_ms,
              visit_end_ms := cur.geo_time_ms,
              last_inside_ms := cur.geo_time_ms, visit_points := 1,
              outside_started_ms := none, method := "restart_after_gap",
              prev := cur,
              prev_inside := inside cur.latitude cur.longitude } := by
          simp only [stepVisit]
          rw [if_pos hin, if_pos hci, if_pos hg]
        rw [hstep]
        refine ⟨appendVisit_chain h1 h31, ?_, fun _ => ⟨?_, le_refl _, le_refl _, ?_⟩⟩
        · exact appendVisit_getLast (fun v hv => le_trans (h2 v hv) hord)
            (le_trans h32 hord)
        · exact appendVisit_getLast (fun v hv => le_trans (h2 v hv) hord)
            (le_trans h32 hord)
        · intro o ho
          simp at ho
      · -- plain inside extension
        have hstep : stepVisit inside params st cur =
            { st with
              visit_end_ms := cur.geo_time_ms,
              last_inside_ms := cur.geo_time_ms,
              visit_points := st.visit_points + 1, outside_started_ms := none,
              prev := cur,
              prev_inside := inside cur.latitude cur.longitude } := by
          simp only [stepVisit]
          rw [if_pos hin, if_pos hci, if_neg hg]
        rw [hstep]
        refine ⟨h1, fun v hv => le_trans (h2 v hv) hord,
          fun _ => ⟨h31, le_refl _, le_refl _, ?_⟩⟩
        intro o ho
        simp at ho
    · -- outside sample while a visit is open
      have hos_le : st.outside_started_ms.getD cur.geo_time_ms ≤ cur.geo_time_ms := by
        rcases ho : st.outside_started_ms with _ | o
        · simp
        · simp only [ho, Option.getD_some]
          exact le_trans ((h34 o (by simp [ho])).2) hord
      have hlast_os : st.last_inside_ms ≤ st.outside_started_ms.getD cur.geo_time_ms := by
        rcases ho : st.outside_started_ms with _ | o
        · simp only [Option.getD_none]
          exact le_trans h32 hord
        · simp only [ho, Option.getD_some]
          exact (h34 o (by simp [ho])).1
      by_cases hcl : (if cur.geo_time_ms ≥ st.outside_started_ms.getD cur.geo_time_ms then
            ((cur.geo_time_ms - st.outside_started_ms.getD cur.geo_time_ms : Int) : Rat) / 1000
          else 0) ≥ params.exit_grace_seconds
      · -- confirmed exit: close the visit
        have hstep : stepVisit inside params st cur =
            { st with
              visits := appendVisit st.visits st.visit_id st.visit_start_ms
                (max st.visit_end_ms
                  (boundary_ms st.last_inside_ms
                    (st.outside_started_ms.getD cur.geo_time_ms)
                    params.transition_gap_seconds "prev"))
                st.visit_points "exit_grace" params.min_dwell_seconds,
              visit_id := st.visit_id + 1, in_visit := false,
              visit_points := 0, outside_started_ms := none,
              visit_end_ms := max st.visit_end_ms
                (boundary_ms st.last_inside_ms
                  (st.outside_started_ms.getD cur.geo_time_ms)
                  params.transition_gap_seconds "prev"),
              prev := cur,
              prev_inside := inside cur.latitude cur.longitude } := by
          simp only [stepVisit]
          rw [if_neg hci, if_pos hcl]
          rw [if_pos hin]
        rw [hstep]
        refine ⟨appendVisit_chain h1 h31, ?_, fun hf => ?_⟩
        · refine appendVisit_getLast (fun v hv => le_trans (h2 v hv) hord) ?_
          refine max_le (le_trans h33 hord) ?_
          exact le_trans (boundary_ms_le _ _ _ _ hlast_os) hos_le
        · simp at hf
      · -- grace period still running: stay pending
        have hstep : stepVisit inside params st cur =
            { st with
              outside_started_ms :=
                some (st.outside_started_ms.getD cur.geo_time_ms),
              prev := cur,
              prev_inside := inside cur.latitude cur.longitude } := by
          simp only [stepVisit]
          rw [if_neg hci, if_neg hcl]
          rw [if_pos hin]
        rw [hstep]
        refine ⟨h1, fun v hv => le_trans (h2 v hv) hord,
          fun _ => ⟨h31, le_trans h32 hord, le_trans h33 hord, ?_⟩⟩
        intro o ho
        simp only [Option.mem_def, Option.some.injEq] at ho
        subst ho
        exact ⟨hlast_os, hos_le⟩
  · by_cases hpc : ((!st.prev_inside) && inside cur.latitude cur.longitude) = true
    · -- entry transition with a boundary estimate
      have hstep : stepVisit inside params st cur =
          { st with
            visit_start_ms := boundary_ms st.prev.geo_time_ms cur.geo_time_ms
              params.transition_gap_seconds "cur",
            visit_end_ms := cur.geo_time_ms,
            last_inside_ms := cur.geo_time_ms,
            visit_points := 1, in_visit := true, outside_started_ms := none,
            method := "midpoint_entry", prev := cur,
            prev_inside := inside cur.latitude cur.longitude } := by
        simp only [stepVisit]
        rw [if_neg hin, if_pos hpc]
      rw [hstep]
      refine ⟨h1, fun v hv => le_trans (h2 v hv) hord,
        fun _ => ⟨?_, le_refl _, le_refl _, ?_⟩⟩
      · exact fun v hv => le_trans (h2 v hv) (boundary_ms_ge _ _ _ _ hord)
      · intro o ho
        simp at ho
    · by_cases hci : inside cur.latitude cur.longitude = true
      · -- restart without a transition sample
        have hstep : stepVisit inside params st cur =
            { st with
              visit_start_ms := cur.geo_time_ms,
              visit_end_ms := cur.geo_time_ms,
              last_inside_ms := cur.geo_time_ms,
              visit_points := 1, in_visit := true, outside_started_ms := none,
              method := "start_at_inside", prev := cur,
              prev_inside := inside cur.latitude cur.longitude } := by
          simp only [stepVisit]
          rw [if_neg hin, if_neg hpc, if_pos hci]
        rw [hstep]
        refine ⟨h1, fun v hv => le_trans (h2 v hv) hord,
          fun _ => ⟨fun v hv => le_trans (h2 v hv) hord, le_refl _, le_refl _, ?_⟩⟩
        intro o ho
        simp at ho
      · -- still outside
        have hstep : stepVisit inside params st cur =
            { st with
              prev := cur,
              prev_inside := inside cur.latitude cur.longitude } := by
          simp only [stepVisit]
          rw [if_neg hin, if_neg hpc, if_neg hci]
        rw [hstep]
        exact ⟨h1, fun v hv => le_trans (h2 v hv) hord,
          fun hcontr => absurd hcontr hin⟩

/-- The invariant is preserved across the whole loop for a time-chained
suffix. -/
theorem foldl_separated (inside : Rat → Rat → Bool) (params : VisitParams) :
    ∀ (l : List TrackPoint) (st : EngineState), SeparatedState st →
      List.Chain (fun a b => a.geo_time_ms ≤ b.geo_time_ms) st.prev l →
      SeparatedState (l.foldl (stepVisit inside params) st) := by
  intro l
  induction l with
  | nil => exact fun st h _ => h
  | cons c t ih =>
    intro st hI hch
    rw [List.chain_cons] at hch
    refine ih _ (stepVisit_separated inside params st c hch.1 hI) ?_
    rw [stepVisit_prev]
    exact hch.2

/-- The first sample always leaves the invariant satisfied. -/
theorem initState_separated (inside : Rat → Rat → Bool) (p0 : TrackPoint) :
    SeparatedState (initState inside p0) := by
  unfold initState SeparatedState
  split
  · exact ⟨List.chain'_nil, by simp, fun _ => ⟨by simp, le_refl _, le_refl _, by simp⟩⟩
  · exact ⟨List.chain'_nil, by simp, fun h => by simp at h⟩

/-- Both branches of `initState` store the first sample as `prev`. -/
theorem initState_prev (inside : Rat → Rat → Bool) (p0 : TrackPoint) :
    (initState inside p0).prev = p0 := by
  unfold initState
  split <;> rfl

/-- Finalization keeps the visit list chained. -/
theorem finalizeVisits_chain (params : VisitParams) (st : EngineState)
    (hI : SeparatedState st) :
    List.Chain' (fun a b => a.end_ms ≤ b.start_ms) (finalizeVisits params st) := by
  obtain ⟨h1, h2, h3⟩ := hI
  unfold finalizeVisits
  split
  · rename_i hin
    exact appendVisit_chain h1 (h3 hin).1
  · exact h1

/-- C9: For every input, classifier and parameter set, the visit list
returned by `find_visits` is chronologically ordered and pairwise
non-overlapping: each visit's end is at or before the next visit's start. -/
theorem C9_visits_ordered_disjoint (inside : Rat → Rat → Bool)
    (points : List TrackPoint) (params : VisitParams) :
    List.Chain' (fun a b => a.end_ms ≤ b.start_ms)
      (find_visits inside points params) := by
  unfold find_visits
  rcases hm : sortPoints points with _ | ⟨p0, rest⟩
  · exact List.chain'_nil
  · have hs := sortPoints_sorted points
    rw [hm] at hs
    have hchain : List.Chain (fun a b : TrackPoint => a.geo_time_ms ≤ b.geo_time_ms)
        p0 rest := hs.chain'
    refine finalizeVisits_chain params _ ?_
    refine foldl_separated inside params rest (initState inside p0)
      (initState_separated inside p0) ?_
    rw [initState_prev]
    exact hchain
